import Mathlib

set_option maxRecDepth 100000

/-! Shallow embedding of the CFBPrediction logic model (logic_model.py).

The Python program is a sequential request/format/print tool.  Remote calls
are modelled by explicit environment arguments of type Except Fault α, the
print stream is modelled as the list of emitted lines, and the network
activity as a list of Request values.  The Python str helpers the program
uses (lower, upper, title, capitalize, replace, the in operator, ljust and
list repr) are modelled over List Char and String; all inputs in view are
ASCII, where Char.toLower and Char.toUpper agree with Python. -/

/-- Python str.lower, as used on roster and player names. -/
def pyLower (s : String) : String := String.mk (s.data.map Char.toLower)

/-- Python str.upper, as used on position codes. -/
def pyUpper (s : String) : String := String.mk (s.data.map Char.toUpper)

/-- Worker for Python str.title: an alphabetic character is uppercased when
the previous character was not alphabetic, and lowercased otherwise. -/
def pyTitleAux : Bool → List Char → List Char
  | _, [] => []
  | prevAlpha, c :: cs =>
    (if c.isAlpha then (if prevAlpha then c.toLower else c.toUpper) else c)
      :: pyTitleAux c.isAlpha cs

/-- Python str.title. -/
def pyTitle (s : String) : String := String.mk (pyTitleAux false s.data)

/-- Python str.capitalize: first character uppercased, the rest lowercased. -/
def pyCapitalize (s : String) : String :=
  match s.data with
  | [] => ""
  | c :: cs => String.mk (c.toUpper :: cs.map Char.toLower)

/-- Boolean test for p being a leading segment of l. -/
def isPreOf : List Char → List Char → Bool
  | [], _ => true
  | _ :: _, [] => false
  | a :: as, b :: bs => a == b && isPreOf as bs

/-- Python substring test (pat in s), over character lists. -/
def containsL (p : List Char) : List Char → Bool
  | [] => p.isEmpty
  | c :: cs => isPreOf p (c :: cs) || containsL p cs

/-- Python substring test (pat in s). -/
def pyContains (s pat : String) : Bool := containsL pat.data s.data

/-- Worker for Python str.replace: left-to-right, non-overlapping.  skip
counts characters of a consumed match still to be dropped. -/
def repGo (p r : List Char) : Nat → List Char → List Char
  | _, [] => []
  | skip+1, _ :: cs => repGo p r skip cs
  | 0, c :: cs =>
    if isPreOf p (c :: cs) then r ++ repGo p r (p.length - 1) cs
    else c :: repGo p r 0 cs

/-- Python str.replace over character lists (program patterns are nonempty). -/
def pyReplaceL (p r l : List Char) : List Char := if p = [] then l else repGo p r 0 l

/-- Python s.replace(pat, repl). -/
def pyReplace (s pat repl : String) : String :=
  String.mk (pyReplaceL pat.data repl.data s.data)

/-- Python f-string left alignment, as in a format spec of the form <n. -/
def pyLjust (n : Nat) (s : String) : String :=
  s ++ String.mk (List.replicate (n - s.data.length) ' ')

/-- Lexicographic code-point comparison of character lists: the order used
by Python sorted() on strings. -/
def charsLe : List Char → List Char → Bool
  | [], _ => true
  | _ :: _, [] => false
  | a :: as, b :: bs => if a < b then true else if b < a then false else charsLe as bs

/-- Python sorted() on a list of strings.  As string keys under comparison
are pairwise distinct or identical, any sorting algorithm for the
lexicographic order returns the same list as Python sorted. -/
def pySorted (l : List String) : List String :=
  List.insertionSort (fun a b => charsLe a.data b.data = true) l

/-- A scalar JSON value as handled by the program; values are only tested
for truthiness and rendered with str. -/
inductive Leaf where
  | lNull
  | lInt (n : Int)
  | lStr (s : String)
deriving DecidableEq, Repr

/-- Python str() on the scalar values the program prints. -/
def pyStrLeaf : Leaf → String
  | .lNull => "None"
  | .lInt n => toString n
  | .lStr s => s

/-- A top-level value of an advanced-stats record: either a nested mapping
(a category section) or a scalar. -/
inductive TopVal where
  | leaf (v : Leaf)
  | dict (d : List (String × Leaf))
deriving DecidableEq, Repr

/-- Python dict.get k (dict keys are unique, first binding wins). -/
def dictGet {α : Type} (d : List (String × α)) (k : String) : Option α :=
  (d.find? (fun kv => kv.1 == k)).map Prod.snd

/-- Python dict assignment d[k] = v: overwrite in place, or append. -/
def dictInsert {α : Type} : List (String × α) → String → α → List (String × α)
  | [], k, v => [(k, v)]
  | (k0, v0) :: rest, k, v =>
    if k0 = k then (k, v) :: rest else (k0, v0) :: dictInsert rest k v

/-- A fault raised by a remote call: the cfbd ApiException branch, or any
other exception. -/
inductive Fault where
  | apiExc (msg : String)
  | other (msg : String)
deriving DecidableEq, Repr

/-- One remote call, as recorded in the network log. -/
inductive Request where
  | advStats (team : String)
  | roster (team : String)
  | playerStats (category : String)
deriving DecidableEq, Repr

structure RosterEntry where
  name : String
  position : String
deriving DecidableEq, Repr

/-- One record of a player-season-stats response: the player attribute used
for name matching, and the to_dict() field mapping. -/
structure PlayerRecord where
  player : String
  fields : List (String × Leaf)
deriving DecidableEq, Repr

/-- The fixed position-to-category map of logic_model.py, in source order. -/
def POSITION_STAT_MAP : List (String × List String) :=
  [("QB", ["passing", "rushing", "receiving", "fumbles"]),
   ("RB", ["rushing", "receiving", "fumbles"]),
   ("WR", ["receiving", "rushing", "fumbles"]),
   ("TE", ["receiving", "rushing", "fumbles"]),
   ("FB", ["rushing", "receiving", "fumbles"]),
   ("DB", ["defensive", "interceptions", "fumbles"]),
   ("CB", ["defensive", "interceptions", "fumbles"]),
   ("S", ["defensive", "interceptions", "fumbles"]),
   ("LB", ["defensive", "interceptions", "fumbles"]),
   ("DE", ["defensive", "interceptions", "fumbles"]),
   ("DT", ["defensive", "interceptions", "fumbles"]),
   ("DL", ["defensive", "interceptions", "fumbles"]),
   ("K", ["kicking"]),
   ("P", ["punting"]),
   ("LS", []),
   ("OL", [])]

/-- POSITION_STAT_MAP.get(k, None). -/
def posLookup (k : String) : Option (List String) := dictGet POSITION_STAT_MAP k

/-- The message of the ValueError raised when the API key is absent. -/
def api_key_msg : String :=
  "API key not found. Please set the CFBD_API_KEY environment variable in a .env file or your system environment."

/-- Python repr of a list of strings, as interpolated by an f-string. -/
def pyStrList (l : List String) : String :=
  "[" ++ String.intercalate ", " (l.map (fun s => "\x27" ++ s ++ "\x27")) ++ "]"

/-- The two exception handlers of fetch_advanced_stats (lines 57-62). -/
def fault_msg_adv (team_name : String) : Fault → String
  | .apiExc m => "CFBD API Error for " ++ team_name ++ ": " ++ m
  | .other m => "An unexpected error occurred for " ++ team_name ++ ": " ++ m

/-- The two exception handlers of get_player_position (lines 107-110). -/
def roster_fault_msg (team_name : String) : Fault → String
  | .apiExc m => "CFBD API Error while fetching roster for " ++ team_name ++ ": " ++ m
  | .other m => "An unexpected error occurred while fetching roster: " ++ m

/-- The two exception handlers of get_player_stats_by_name (lines 177-180). -/
def agg_fault_msg : Fault → String
  | .apiExc m => "CFBD API Error: " ++ m
  | .other m => "An unexpected error occurred: " ++ m

structure FetchRes where
  result : Option (List (String × TopVal))
  output : List String
  requests : List Request
deriving Repr

/-- logic_model.fetch_advanced_stats.  hasToken models the truthiness of
configuration.access_token; api models the remote get_advanced_season_stats
call for this team and year. -/
def fetch_advanced_stats (team_name : String) (year : Int) (hasToken : Bool)
    (api : Except Fault (List (List (String × TopVal)))) : FetchRes :=
  if hasToken = false then
    { result := none,
      output := ["An unexpected error occurred for " ++ team_name ++ ": " ++ api_key_msg],
      requests := [] }
  else
    let fl := "Fetching advanced stats for " ++ team_name ++ " in " ++ toString year ++ "..."
    match api with
    | .error e =>
      { result := none, output := [fl, fault_msg_adv team_name e],
        requests := [Request.advStats team_name] }
    | .ok [] =>
      { result := none,
        output := [fl, "No advanced stats found for " ++ team_name ++ " in " ++ toString year
                     ++ ". Please check the team name and year."],
        requests := [Request.advStats team_name] }
    | .ok (r :: _) =>
      { result := some r, output := [fl], requests := [Request.advStats team_name] }

def display_categories : List String := ["total", "offense", "defense"]

def cmp_table_header (team_a team_b : String) : String :=
  pyLjust 30 "Statistic" ++ pyLjust 20 team_a ++ pyLjust 20 team_b

def cmp_dash_line : String := String.mk (List.replicate 70 '-')

/-- One printed row of the comparison table (line 89). -/
def cmp_row (da db : List (String × Leaf)) (stat_name : String) : String :=
  pyLjust 30 (pyTitle (pyReplace stat_name "_" " "))
    ++ pyLjust 20 (pyStrLeaf ((dictGet da stat_name).getD (Leaf.lStr "N/A")))
    ++ pyLjust 20 (pyStrLeaf ((dictGet db stat_name).getD (Leaf.lStr "N/A")))

/-- The body of the per-category loop of compare_teams (lines 76-89): the
section header line always, the table only when both teams hold a truthy
dict for the category. -/
def compare_category (team_a team_b : String) (sa sb : List (String × TopVal))
    (category_name : String) : List String :=
  let l0 := "\n--- " ++ pyCapitalize category_name ++ " ---"
  match dictGet sa category_name, dictGet sb category_name with
  | some (TopVal.dict da), some (TopVal.dict db) =>
    if da.isEmpty || db.isEmpty then [l0]
    else
      l0 :: cmp_table_header team_a team_b :: cmp_dash_line
        :: (pySorted (da.map Prod.fst)).map (cmp_row da db)
  | _, _ => [l0]

structure CmpRes where
  output : List String
  requests : List Request
deriving Repr

/-- logic_model.compare_teams (lines 65-89). -/
def compare_teams (team_a_name team_b_name : String) (year : Int) (hasToken : Bool)
    (apiA apiB : Except Fault (List (List (String × TopVal)))) : CmpRes :=
  let l0 := "--- Comparing Advanced Season Stats for " ++ team_a_name ++ " vs "
              ++ team_b_name ++ " (" ++ toString year ++ ") ---"
  let fa := fetch_advanced_stats team_a_name year hasToken apiA
  let fb := fetch_advanced_stats team_b_name year hasToken apiB
  let base := l0 :: (fa.output ++ fb.output)
  match fa.result, fb.result with
  | some sa, some sb =>
    if sa.isEmpty || sb.isEmpty then { output := base, requests := fa.requests ++ fb.requests }
    else
      { output := base
          ++ (display_categories.map (compare_category team_a_name team_b_name sa sb)).flatten,
        requests := fa.requests ++ fb.requests }
  | _, _ => { output := base, requests := fa.requests ++ fb.requests }

structure PosRes where
  position : Option String
  output : List String
  requests : List Request
deriving Repr

/-- logic_model.get_player_position (lines 92-112). -/
def get_player_position (player_name team_name : String) (hasToken : Bool)
    (rosterApi : Except Fault (List RosterEntry)) : PosRes :=
  if hasToken = false then
    { position := none,
      output := ["An unexpected error occurred while fetching roster: " ++ api_key_msg],
      requests := [] }
  else
    match rosterApi with
    | .error e =>
      { position := none,
        output := [roster_fault_msg team_name e],
        requests := [Request.roster team_name] }
    | .ok roster =>
      { position := (roster.find?
          (fun p => pyLower p.name == pyLower player_name)).map RosterEntry.position,
        output := [], requests := [Request.roster team_name] }

def excluded_fields : List String := ["player", "team", "conference", "athlete_id", "category"]

/-- Line 146: the first record whose player attribute matches the target
name case-insensitively. -/
def select_player (player_name : String) (resp : List PlayerRecord) : Option PlayerRecord :=
  resp.find? (fun p => pyLower p.player == pyLower player_name)

/-- Lines 150-152: merge the non-identifying fields of one matched record
into the running combined mapping, prefixing each key with the category. -/
def merge_record (category : String) (fields : List (String × Leaf))
    (acc : List (String × Leaf)) : List (String × Leaf) :=
  fields.foldl
    (fun a kv =>
      if kv.1 ∈ excluded_fields then a
      else dictInsert a (category ++ "_" ++ kv.1) kv.2) acc

/-- Lines 157-170: derive the display label of one combined stat key. -/
def display_key_of (stat_key : String) : String :=
  let t := pyTitle (pyReplace stat_key "_" " ")
  let d := pyReplace (pyReplace (pyReplace (pyReplace t "Passing " "")
             "Rushing " "") "Receiving " "") "Fumbles " ""
  if pyContains stat_key "passing_" then "Passing " ++ d
  else if pyContains stat_key "rushing_" then "Rushing " ++ d
  else if pyContains stat_key "receiving_" then "Receiving " ++ d
  else if pyContains stat_key "fumbles_" then "Fumbles " ++ d
  else d

structure LoopRes where
  combined : List (String × Leaf)
  requests : List Request
  output : List String
  fault : Option Fault
deriving Repr

/-- The per-category fetch-and-merge loop (lines 137-152); a raised fault
leaves the loop at once. -/
def agg_loop (player_name : String)
    (statsApi : String → Except Fault (List PlayerRecord)) :
    List String → List (String × Leaf) → LoopRes
  | [], acc => { combined := acc, requests := [], output := [], fault := none }
  | category :: rest, acc =>
    let fl := "Fetching " ++ category ++ " stats..."
    match statsApi category with
    | .error e =>
      { combined := acc, requests := [Request.playerStats category],
        output := [fl], fault := some e }
    | .ok resp =>
      let acc' :=
        if resp.isEmpty then acc
        else
          match select_player player_name resp with
          | none => acc
          | some r => merge_record category r.fields acc
      let lr := agg_loop player_name statsApi rest acc'
      { combined := lr.combined, requests := Request.playerStats category :: lr.requests,
        output := fl :: lr.output, fault := lr.fault }

def player_not_found_msg (player_name team_name : String) (year : Int) : String :=
  "Could not find player \x27" ++ player_name ++ "\x27 or team \x27" ++ team_name
    ++ "\x27 in the roster for " ++ toString year ++ ". Please check the names and try again."

def unsupported_msg (position : String) : String :=
  "Player position \x27" ++ position
    ++ "\x27 is not supported for detailed stats fetching. Supported positions are "
    ++ pyStrList (POSITION_STAT_MAP.map Prod.fst) ++ "."

def no_stats_msg (player_name team_name : String) (year : Int) : String :=
  "No stats found for " ++ player_name ++ " on team \x27" ++ team_name ++ "\x27 in "
    ++ toString year ++ "."

def stats_header (player_name position : String) : String :=
  "\n--- Player Stats for " ++ player_name ++ " (" ++ position ++ ") ---"

/-- Line 172: one printed stat line. -/
def stats_line (combined : List (String × Leaf)) (stat_key : String) : String :=
  pyLjust 35 (display_key_of stat_key) ++ ": "
    ++ pyStrLeaf ((dictGet combined stat_key).getD Leaf.lNull)

structure AggResult where
  output : List String
  requests : List Request
  combined : List (String × Leaf)
deriving Repr

/-- logic_model.get_player_stats_by_name (lines 115-180). -/
def searching_msg (player_name team_name : String) (year : Int) : String :=
  "--- Searching for stats for " ++ player_name ++ " on " ++ team_name
    ++ " (" ++ toString year ++ ") ---"

def get_player_stats_by_name (player_name team_name : String) (year : Int) (hasToken : Bool)
    (rosterApi : Except Fault (List RosterEntry))
    (statsApi : String → Except Fault (List PlayerRecord)) : AggResult :=
  let l0 := searching_msg player_name team_name year
  let pr := get_player_position player_name team_name hasToken rosterApi
  match pr.position with
  | none =>
    { output := [l0] ++ pr.output ++ [player_not_found_msg player_name team_name year],
      requests := pr.requests, combined := [] }
  | some position =>
    if position = "" then
      { output := [l0] ++ pr.output ++ [player_not_found_msg player_name team_name year],
        requests := pr.requests, combined := [] }
    else
      match posLookup (pyUpper position) with
      | none =>
        { output := [l0] ++ pr.output ++ [unsupported_msg position],
          requests := pr.requests, combined := [] }
      | some [] =>
        { output := [l0] ++ pr.output ++ [unsupported_msg position],
          requests := pr.requests, combined := [] }
      | some (c :: cs) =>
        let lr := agg_loop player_name statsApi (c :: cs) []
        match lr.fault with
        | some e =>
          { output := [l0] ++ pr.output ++ lr.output ++ [agg_fault_msg e],
            requests := pr.requests ++ lr.requests, combined := lr.combined }
        | none =>
          if lr.combined.isEmpty then
            { output := [l0] ++ pr.output ++ lr.output
                ++ [no_stats_msg player_name team_name year],
              requests := pr.requests ++ lr.requests, combined := lr.combined }
          else
            { output := [l0] ++ pr.output ++ lr.output
                ++ [stats_header player_name position]
                ++ (pySorted (lr.combined.map Prod.fst)).map (stats_line lr.combined),
              requests := pr.requests ++ lr.requests, combined := lr.combined }

inductive LoopCtl where
  | cont
  | exit
deriving DecidableEq, Repr

structure MenuRes where
  output : List String
  requests : List Request
  ctl : LoopCtl
deriving Repr

def menu_lines : List String :=
  ["\nWhat would you like to do?",
   "1. Compare two teams\x27 advanced stats",
   "2. Look up a player\x27s season stats",
   "3. Exit"]

def invalid_year_msg : String := "Invalid year. Please enter a valid integer for the year."

/-- One iteration of the interactive loop (lines 186-221).  yearParse models
the outcome of Python int(year_input): none when a ValueError is raised. -/
def menu_step (choice input1 input2 _year_input : String) (yearParse : Option Int)
    (hasToken : Bool)
    (advApi : String → Except Fault (List (List (String × TopVal))))
    (rosterApi : Except Fault (List RosterEntry))
    (statsApi : String → Except Fault (List PlayerRecord)) : MenuRes :=
  if choice = "1" then
    match yearParse with
    | none =>
      { output := menu_lines ++ [invalid_year_msg], requests := [], ctl := LoopCtl.cont }
    | some y =>
      let cr := compare_teams input1 input2 y hasToken (advApi input1) (advApi input2)
      { output := menu_lines ++ cr.output, requests := cr.requests, ctl := LoopCtl.cont }
  else if choice = "2" then
    match yearParse with
    | none =>
      { output := menu_lines ++ [invalid_year_msg], requests := [], ctl := LoopCtl.cont }
    | some y =>
      let ar := get_player_stats_by_name input1 input2 y hasToken rosterApi statsApi
      { output := menu_lines ++ ar.output, requests := ar.requests, ctl := LoopCtl.cont }
  else if choice = "3" then
    { output := menu_lines ++ ["Exiting. Goodbye!"], requests := [], ctl := LoopCtl.exit }
  else
    { output := menu_lines ++ ["Invalid choice. Please enter 1, 2, or 3."],
      requests := [], ctl := LoopCtl.cont }

/-! ### Basic helper lemmas -/

theorem sdata_append (s t : String) : (s ++ t).data = s.data ++ t.data := by
  cases s; cases t; rfl

theorem str_eq_of_data {s t : String} (h : s.data = t.data) : s = t := by
  cases s; cases t; exact congrArg String.mk h

theorem str_append_cancel_left {a b c : String} (h : a ++ b = a ++ c) : b = c := by
  have hd : a.data ++ b.data = a.data ++ c.data := by
    rw [← sdata_append, ← sdata_append, h]
  exact str_eq_of_data (List.append_cancel_left hd)

theorem find?_first {α : Type} (p : α → Bool) :
    ∀ (l : List α) (r : α), l.find? p = some r →
      p r = true ∧ ∃ pre post, l = pre ++ r :: post ∧ ∀ x ∈ pre, p x = false := by
  intro l
  induction l with
  | nil => intro r h; simp at h
  | cons a l ih =>
    intro r h
    by_cases hpa : p a = true
    · rw [List.find?_cons_of_pos _ hpa] at h
      obtain rfl : a = r := by injection h
      exact ⟨hpa, [], l, rfl, by simp⟩
    · rw [List.find?_cons_of_neg _ hpa] at h
      obtain ⟨hr, pre, post, hl, hpre⟩ := ih r h
      refine ⟨hr, a :: pre, post, by simp [hl], ?_⟩
      intro x hx
      rcases List.mem_cons.mp hx with rfl | hx
      · simpa using hpa
      · exact hpre x hx

theorem dictGet_eq_none_iff {α : Type} (d : List (String × α)) (k : String) :
    dictGet d k = none ↔ k ∉ d.map Prod.fst := by
  unfold dictGet
  induction d with
  | nil => simp
  | cons kv rest ih =>
    by_cases h : kv.1 = k
    · have hb : (kv.1 == k) = true := beq_iff_eq.mpr h
      simp [List.find?_cons, hb, h]
    · have hb : (kv.1 == k) = false := beq_eq_false_iff_ne.mpr h
      simp only [List.find?_cons, hb, List.map_cons, List.mem_cons]
      rw [ih]
      constructor
      · intro hn hc
        rcases hc with hc | hc
        · exact h hc.symm
        · exact hn hc
      · intro hn hc
        exact hn (Or.inr hc)

theorem dictInsert_keys {α : Type} :
    ∀ (d : List (String × α)) (k : String) (v : α) (x : String),
      x ∈ (dictInsert d k v).map Prod.fst → x ∈ d.map Prod.fst ∨ x = k := by
  intro d k v
  induction d with
  | nil => intro x hx; right; simpa [dictInsert] using hx
  | cons kv rest ih =>
    intro x hx
    by_cases h : kv.1 = k
    · simp [dictInsert, h] at hx
      rcases hx with rfl | hx
      · right; rfl
      · left; simp [hx]
    · simp [dictInsert, h] at hx
      rcases hx with rfl | hx
      · left; simp
      · rcases ih x (by simpa using hx) with h2 | h2
        · left; simp [h2]
        · right; exact h2

theorem dictInsert_fresh {α : Type} :
    ∀ (d : List (String × α)) (k : String) (v : α),
      k ∉ d.map Prod.fst → dictInsert d k v = d ++ [(k, v)] := by
  intro d k v
  induction d with
  | nil => intro _; rfl
  | cons kv rest ih =>
    intro h
    have h1 : kv.1 ≠ k := by
      intro hc; exact h (by simp [hc])
    have h2 : k ∉ rest.map Prod.fst := by
      intro hc; exact h (by simp [hc])
    simp [dictInsert, h1, ih h2]

/-! ### Sorting lemmas: pySorted is a sorted permutation -/

theorem charsLe_total : ∀ a b : List Char, charsLe a b = true ∨ charsLe b a = true := by
  intro a
  induction a with
  | nil => intro b; left; rfl
  | cons x xs ih =>
    intro b
    cases b with
    | nil => right; rfl
    | cons y ys =>
      rcases lt_trichotomy x y with h | h | h
      · left; simp [charsLe, h]
      · subst h
        rcases ih ys with h2 | h2
        · left; simpa [charsLe, lt_irrefl] using h2
        · right; simpa [charsLe, lt_irrefl] using h2
      · right; simp [charsLe, h]

theorem charsLe_trans :
    ∀ a b c : List Char, charsLe a b = true → charsLe b c = true → charsLe a c = true := by
  intro a
  induction a with
  | nil => intro b c _ _; rfl
  | cons x xs ih =>
    intro b c hab hbc
    cases b with
    | nil => simp [charsLe] at hab
    | cons y ys =>
      cases c with
      | nil => simp [charsLe] at hbc
      | cons z zs =>
        rcases lt_trichotomy x y with hxy | hxy | hxy
        · rcases lt_trichotomy y z with hyz | hyz | hyz
          · simp [charsLe, lt_trans hxy hyz]
          · subst hyz; simp [charsLe, hxy]
          · simp [charsLe, lt_asymm hyz, hyz] at hbc
        · subst hxy
          rcases lt_trichotomy x z with hxz | hxz | hxz
          · simp [charsLe, hxz]
          · subst hxz
            simp only [charsLe, lt_irrefl, if_false] at hab hbc ⊢
            exact ih ys zs hab hbc
          · simp [charsLe, lt_asymm hxz, hxz] at hbc
        · simp [charsLe, lt_asymm hxy, hxy] at hab

theorem charsLe_iff_not_lex :
    ∀ a b : List Char, charsLe a b = true ↔ ¬ List.Lex (· < ·) b a := by
  intro a
  induction a with
  | nil =>
    intro b
    constructor
    · intro _ h; cases h
    · intro _; rfl
  | cons x xs ih =>
    intro b
    cases b with
    | nil =>
      constructor
      · intro h; simp [charsLe] at h
      · intro h; exact absurd (List.Lex.nil) h
    | cons y ys =>
      rcases lt_trichotomy x y with h | h | h
      · constructor
        · intro _ hl
          cases hl with
          | rel h2 => exact lt_asymm h h2
          | cons h2 => exact lt_irrefl x h
        · intro _; simp [charsLe, h]
      · subst h
        constructor
        · intro h1 hl
          cases hl with
          | rel h2 => exact lt_irrefl x h2
          | cons h2 =>
            have h3 : charsLe xs ys = true := by
              simpa [charsLe, lt_irrefl] using h1
            exact (ih ys).mp h3 h2
        · intro h1
          have h3 : ¬ List.Lex (· < ·) ys xs := fun hc => h1 (List.Lex.cons hc)
          simpa [charsLe, lt_irrefl] using (ih ys).mpr h3
      · constructor
        · intro h1; simp [charsLe, lt_asymm h, h] at h1
        · intro h1; exact absurd (List.Lex.rel h) h1

theorem charsLe_iff_le (a b : String) : (charsLe a.data b.data = true) ↔ a ≤ b := by
  rw [String.le_iff_toList_le]
  have h1 : (a.toList ≤ b.toList) ↔ ¬ b.toList < a.toList := not_lt.symm
  rw [h1]
  exact charsLe_iff_not_lex a.data b.data

theorem pySorted_perm (l : List String) : (pySorted l).Perm l :=
  List.perm_insertionSort _ l

theorem pySorted_mem (l : List String) (x : String) : x ∈ pySorted l ↔ x ∈ l :=
  (pySorted_perm l).mem_iff

theorem pySorted_sorted (l : List String) : List.Sorted (· ≤ ·) (pySorted l) := by
  haveI ht : IsTotal String (fun a b : String => charsLe a.data b.data = true) :=
    ⟨fun a b => charsLe_total a.data b.data⟩
  haveI htr : IsTrans String (fun a b : String => charsLe a.data b.data = true) :=
    ⟨fun a b c hab hbc => charsLe_trans a.data b.data c.data hab hbc⟩
  have h := List.sorted_insertionSort (fun a b : String => charsLe a.data b.data = true) l
  exact h.imp (fun hab => (charsLe_iff_le _ _).mp hab)

/-! ### Lemmas on the replace and title workers -/

theorem isPreOf_append_self : ∀ (p t : List Char), isPreOf p (p ++ t) = true := by
  intro p t
  induction p with
  | nil => rfl
  | cons a as ih => simp [isPreOf, ih]

theorem containsL_of_isPre {p l : List Char} (h : isPreOf p l = true) :
    containsL p l = true := by
  cases l with
  | nil =>
    cases p with
    | nil => rfl
    | cons a as => simp [isPreOf] at h
  | cons c cs => simp [containsL, h]

theorem containsL_self_append (p t : List Char) : containsL p (p ++ t) = true :=
  containsL_of_isPre (isPreOf_append_self p t)

theorem containsL_append_right (p s t : List Char) (h : containsL p t = true) :
    containsL p (s ++ t) = true := by
  induction s with
  | nil => simpa using h
  | cons c cs ih => simp [containsL, ih]

theorem repGo_skip (p r : List Char) :
    ∀ (l : List Char) (k : Nat), repGo p r k l = repGo p r 0 (l.drop k) := by
  intro l
  induction l with
  | nil => intro k; cases k <;> rfl
  | cons c cs ih =>
    intro k
    cases k with
    | zero => rfl
    | succ k2 => simpa using ih k2

theorem repGo_not_contains (p r : List Char) :
    ∀ l, containsL p l = false → repGo p r 0 l = l := by
  intro l
  induction l with
  | nil => intro _; rfl
  | cons c cs ih =>
    intro h
    rw [show containsL p (c :: cs) = (isPreOf p (c :: cs) || containsL p cs) from rfl] at h
    obtain ⟨h1, h2⟩ := Bool.or_eq_false_iff.mp h
    simp [repGo, h1, ih h2]

theorem repGo_strip (p r t : List Char) (hp : p ≠ []) :
    repGo p r 0 (p ++ t) = r ++ repGo p r 0 t := by
  cases p with
  | nil => exact absurd rfl hp
  | cons a as =>
    have hpre : isPreOf (a :: as) (a :: (as ++ t)) = true := by
      simpa using isPreOf_append_self (a :: as) t
    show repGo (a :: as) r 0 (a :: (as ++ t)) = _
    simp only [repGo]
    rw [if_pos hpre]
    have hlen : (a :: as).length - 1 = as.length := by simp
    rw [repGo_skip, hlen, List.drop_left]

theorem repGo_underscore : ∀ l : List Char,
    repGo ['_'] [' '] 0 l = l.map (fun c => if c = '_' then ' ' else c) := by
  intro l
  induction l with
  | nil => rfl
  | cons c cs ih =>
    by_cases h : c = '_'
    · subst h
      have hpre : isPreOf ['_'] ('_' :: cs) = true := by simp [isPreOf]
      simp [repGo, hpre, ih]
    · have hne : ('_' == c) = false := beq_eq_false_iff_ne.mpr (fun hc => h hc.symm)
      simp [repGo, isPreOf, hne, ih, h]

theorem pyReplace_underscore_data (s : String) :
    (pyReplace s "_" " ").data = s.data.map (fun c => if c = '_' then ' ' else c) := by
  show pyReplaceL "_".data " ".data s.data = _
  have h1 : "_".data = ['_'] := rfl
  have h2 : " ".data = [' '] := rfl
  rw [h1, h2]
  unfold pyReplaceL
  rw [if_neg (by simp)]
  exact repGo_underscore s.data

theorem pyTitleAux_split : ∀ (xs : List Char) (b : Bool) (ys : List Char),
    pyTitleAux b (xs ++ ' ' :: ys) = pyTitleAux b xs ++ ' ' :: pyTitleAux false ys := by
  intro xs
  induction xs with
  | nil =>
    intro b ys
    have h : (' ').isAlpha = false := by decide
    simp [pyTitleAux, h]
  | cons c cs ih =>
    intro b ys
    simp [pyTitleAux, ih]

/-! ### Lemmas on the merge step and the category loop -/

theorem merge_record_keys (category : String) :
    ∀ (fields : List (String × Leaf)) (acc : List (String × Leaf)) (x : String),
      x ∈ (merge_record category fields acc).map Prod.fst →
      x ∈ acc.map Prod.fst ∨ ∃ f, x = category ++ "_" ++ f := by
  intro fields
  induction fields with
  | nil => intro acc x hx; left; exact hx
  | cons kv rest ih =>
    intro acc x hx
    rw [show merge_record category (kv :: rest) acc
          = merge_record category rest
              (if kv.1 ∈ excluded_fields then acc
               else dictInsert acc (category ++ "_" ++ kv.1) kv.2) from rfl] at hx
    by_cases h : kv.1 ∈ excluded_fields
    · rw [if_pos h] at hx
      exact ih _ x hx
    · rw [if_neg h] at hx
      rcases ih _ x hx with h2 | h2
      · rcases dictInsert_keys _ _ _ _ h2 with h3 | h3
        · left; exact h3
        · right; exact ⟨kv.1, h3⟩
      · right; exact h2

theorem merge_record_fresh (category : String) :
    ∀ (fields acc : List (String × Leaf)),
      (fields.map Prod.fst).Nodup →
      (∀ f, f ∈ fields.map Prod.fst → (category ++ "_" ++ f) ∉ acc.map Prod.fst) →
      merge_record category fields acc
        = acc ++ (fields.filter (fun kv => decide (kv.1 ∉ excluded_fields))).map
            (fun kv => (category ++ "_" ++ kv.1, kv.2)) := by
  intro fields
  induction fields with
  | nil => intro acc _ _; simp [merge_record]
  | cons kv rest ih =>
    intro acc hnd hfresh
    have hnd0 : (kv.1 :: rest.map Prod.fst).Nodup := by simpa using hnd
    have hnd2 : (rest.map Prod.fst).Nodup := (List.nodup_cons.mp hnd0).2
    have hkv_notin : kv.1 ∉ rest.map Prod.fst := (List.nodup_cons.mp hnd0).1
    rw [show merge_record category (kv :: rest) acc
          = merge_record category rest
              (if kv.1 ∈ excluded_fields then acc
               else dictInsert acc (category ++ "_" ++ kv.1) kv.2) from rfl]
    by_cases h : kv.1 ∈ excluded_fields
    · rw [if_pos h, ih acc hnd2 (fun f hf => hfresh f (by simp [hf]))]
      have hq : (decide (kv.1 ∉ excluded_fields)) = false := by simp [h]
      simp [List.filter_cons, hq, h]
    · rw [if_neg h]
      have hfr : (category ++ "_" ++ kv.1) ∉ acc.map Prod.fst := hfresh kv.1 (by simp)
      rw [dictInsert_fresh acc _ _ hfr]
      have hfresh2 : ∀ f, f ∈ rest.map Prod.fst →
          (category ++ "_" ++ f) ∉ (acc ++ [(category ++ "_" ++ kv.1, kv.2)]).map Prod.fst := by
        intro f hf
        simp only [List.map_append, List.mem_append, List.map_cons, List.map_nil,
          List.mem_singleton]
        rintro (hc | hc)
        · exact hfresh f (by simp [hf]) hc
        · have hfk : f = kv.1 := str_append_cancel_left hc
          exact hkv_notin (hfk ▸ hf)
      rw [ih _ hnd2 hfresh2]
      have hq : (decide (kv.1 ∉ excluded_fields)) = true := by simp [h]
      simp [List.filter_cons, hq, h]

theorem agg_loop_ok (player_name : String)
    (statsApi : String → Except Fault (List PlayerRecord)) :
    ∀ (cats : List String) (acc : List (String × Leaf)),
      (∀ c ∈ cats, ∃ resp, statsApi c = Except.ok resp) →
      (agg_loop player_name statsApi cats acc).requests = cats.map Request.playerStats
      ∧ (agg_loop player_name statsApi cats acc).fault = none := by
  intro cats
  induction cats with
  | nil => intro acc _; exact ⟨rfl, rfl⟩
  | cons c rest ih =>
    intro acc h
    obtain ⟨resp, hresp⟩ := h c (by simp)
    have hrest : ∀ x ∈ rest, ∃ r2, statsApi x = Except.ok r2 := fun x hx => h x (by simp [hx])
    obtain ⟨h1, h2⟩ := ih (if resp.isEmpty then acc
      else match select_player player_name resp with
        | none => acc
        | some r => merge_record c r.fields acc) hrest
    simp only [agg_loop, hresp]
    exact ⟨by simpa using h1, by simpa using h2⟩

theorem agg_loop_keys (player_name : String)
    (statsApi : String → Except Fault (List PlayerRecord)) :
    ∀ (cats : List String) (acc : List (String × Leaf)) (x : String),
      x ∈ (agg_loop player_name statsApi cats acc).combined.map Prod.fst →
      x ∈ acc.map Prod.fst
      ∨ ∃ c f, x = c ++ "_" ++ f
          ∧ Request.playerStats c ∈ (agg_loop player_name statsApi cats acc).requests := by
  intro cats
  induction cats with
  | nil => intro acc x hx; left; exact hx
  | cons c rest ih =>
    intro acc x hx
    cases hapi : statsApi c with
    | error e =>
      simp only [agg_loop, hapi] at hx
      left; exact hx
    | ok resp =>
      simp only [agg_loop, hapi] at hx ⊢
      rcases ih _ x hx with h2 | ⟨c2, f2, hxeq, hmem⟩
      · by_cases hre : resp.isEmpty
        · rw [if_pos hre] at h2
          left; exact h2
        · rw [if_neg hre] at h2
          cases hsel : select_player player_name resp with
          | none =>
            rw [hsel] at h2
            left; exact h2
          | some r =>
            rw [hsel] at h2
            rcases merge_record_keys c r.fields acc x h2 with h3 | ⟨f, hf⟩
            · left; exact h3
            · right; exact ⟨c, f, hf, List.mem_cons_self _ _⟩
      · right; exact ⟨c2, f2, hxeq, List.mem_cons_of_mem _ hmem⟩

theorem get_player_position_of_some
    (player_name team_name : String) (hasToken : Bool)
    (rosterApi : Except Fault (List RosterEntry)) (p : String)
    (h : (get_player_position player_name team_name hasToken rosterApi).position = some p) :
    (get_player_position player_name team_name hasToken rosterApi).output = []
    ∧ (get_player_position player_name team_name hasToken rosterApi).requests
        = [Request.roster team_name]
    ∧ ∃ roster, rosterApi = Except.ok roster
        ∧ (roster.find? (fun q => pyLower q.name == pyLower player_name)).map
            RosterEntry.position = some p := by
  by_cases htok : hasToken = false
  · simp [get_player_position, htok] at h
  · cases rosterApi with
    | error e => simp [get_player_position, htok] at h
    | ok roster =>
      refine ⟨by simp [get_player_position, htok], by simp [get_player_position, htok],
        roster, rfl, ?_⟩
      simpa [get_player_position, htok] using h

theorem get_player_stats_split
    (player_name team_name : String) (year : Int) (hasToken : Bool)
    (rosterApi : Except Fault (List RosterEntry))
    (statsApi : String → Except Fault (List PlayerRecord))
    (p : String) (c : String) (cs : List String)
    (hpos : (get_player_position player_name team_name hasToken rosterApi).position = some p)
    (hp : ¬ p = "")
    (hcats : posLookup (pyUpper p) = some (c :: cs)) :
    (get_player_stats_by_name player_name team_name year hasToken rosterApi statsApi).requests
      = (get_player_position player_name team_name hasToken rosterApi).requests
          ++ (agg_loop player_name statsApi (c :: cs) []).requests
    ∧ (get_player_stats_by_name player_name team_name year hasToken rosterApi
        statsApi).combined = (agg_loop player_name statsApi (c :: cs) []).combined := by
  cases hf : (agg_loop player_name statsApi (c :: cs) []).fault with
  | some e =>
    constructor <;> simp [get_player_stats_by_name, hpos, hp, hcats, hf]
  | none =>
    by_cases hemp : (agg_loop player_name statsApi (c :: cs) []).combined.isEmpty
    · constructor <;> simp [get_player_stats_by_name, hpos, hp, hcats, hf, hemp]
    · constructor <;> simp [get_player_stats_by_name, hpos, hp, hcats, hf, hemp]

/-! ### Display-label helper lemmas -/

theorem containsL_suffix_false {p s t : List Char} (h : containsL p (s ++ t) = false) :
    containsL p t = false := by
  cases hcc : containsL p t with
  | false => rfl
  | true =>
    have h2 := containsL_append_right p s t hcc
    rw [h2] at h
    simp at h

theorem pyReplaceL_keep (w : String) (X : List Char) (hw : ¬ w.data = [])
    (h : containsL w.data X = false) : pyReplaceL w.data [] X = X := by
  unfold pyReplaceL
  rw [if_neg hw]
  exact repGo_not_contains _ _ _ h

theorem pyReplaceL_strip (w : String) (T : List Char) (hw : ¬ w.data = [])
    (h : containsL w.data T = false) : pyReplaceL w.data [] (w.data ++ T) = T := by
  unfold pyReplaceL
  rw [if_neg hw, repGo_strip _ _ _ hw, repGo_not_contains _ _ _ h]
  rfl

theorem title_spaced_key (cat rest : String)
    (hcat_map : cat.data.map (fun c => if c = '_' then ' ' else c) = cat.data) :
    (pyTitle (pyReplace (cat ++ "_" ++ rest) "_" " ")).data
      = pyTitleAux false cat.data ++ ' ' :: (pyTitle (pyReplace rest "_" " ")).data := by
  have h1 : (pyTitle (pyReplace (cat ++ "_" ++ rest) "_" " ")).data
      = pyTitleAux false ((cat ++ "_" ++ rest).data.map (fun c => if c = '_' then ' ' else c)) := by
    show pyTitleAux false (pyReplace (cat ++ "_" ++ rest) "_" " ").data = _
    rw [pyReplace_underscore_data]
  rw [h1]
  have h2 : (cat ++ "_" ++ rest).data = cat.data ++ '_' :: rest.data := by
    rw [sdata_append, sdata_append]
    simp
  rw [h2, List.map_append]
  have h3 : ('_' :: rest.data).map (fun c => if c = '_' then ' ' else c)
      = ' ' :: rest.data.map (fun c => if c = '_' then ' ' else c) := by simp
  rw [h3, hcat_map, pyTitleAux_split]
  rw [show (pyTitle (pyReplace rest "_" " ")).data
        = pyTitleAux false (pyReplace rest "_" " ").data from rfl,
      pyReplace_underscore_data]

theorem strip_chain_data
    (S T own : String)
    (hown : own ∈ (["Passing ", "Rushing ", "Receiving ", "Fumbles "] : List String))
    (hS : S.data = own.data ++ T.data)
    (hoth : ∀ w ∈ (["Passing ", "Rushing ", "Receiving ", "Fumbles "] : List String),
        w ≠ own → containsL w.data S.data = false)
    (hT : containsL own.data T.data = false) :
    (pyReplace (pyReplace (pyReplace (pyReplace S "Passing " "") "Rushing " "")
        "Receiving " "") "Fumbles " "").data = T.data := by
  have hTof : ∀ w : String, w ≠ own →
      w ∈ (["Passing ", "Rushing ", "Receiving ", "Fumbles "] : List String) →
      containsL w.data T.data = false := by
    intro w hne hw
    have h6 : containsL w.data (own.data ++ T.data) = false := by
      rw [← hS]; exact hoth w hw hne
    exact containsL_suffix_false h6
  simp only [List.mem_cons, List.not_mem_nil, or_false] at hown
  rcases hown with rfl | rfl | rfl | rfl
  · have h1 : (pyReplace S "Passing " "").data = T.data := by
      show pyReplaceL "Passing ".data [] S.data = T.data
      rw [hS]
      exact pyReplaceL_strip _ _ (by decide) hT
    have h2 : (pyReplace (pyReplace S "Passing " "") "Rushing " "").data = T.data := by
      show pyReplaceL "Rushing ".data [] (pyReplace S "Passing " "").data = T.data
      rw [h1]
      exact pyReplaceL_keep _ _ (by decide) (hTof _ (by decide) (by simp))
    have h3 : (pyReplace (pyReplace (pyReplace S "Passing " "") "Rushing " "")
        "Receiving " "").data = T.data := by
      show pyReplaceL "Receiving ".data []
        (pyReplace (pyReplace S "Passing " "") "Rushing " "").data = T.data
      rw [h2]
      exact pyReplaceL_keep _ _ (by decide) (hTof _ (by decide) (by simp))
    show pyReplaceL "Fumbles ".data []
      (pyReplace (pyReplace (pyReplace S "Passing " "") "Rushing " "") "Receiving " "").data
        = T.data
    rw [h3]
    exact pyReplaceL_keep _ _ (by decide) (hTof _ (by decide) (by simp))
  · have h1 : (pyReplace S "Passing " "").data = S.data := by
      show pyReplaceL "Passing ".data [] S.data = S.data
      exact pyReplaceL_keep _ _ (by decide) (hoth _ (by simp) (by decide))
    have h2 : (pyReplace (pyReplace S "Passing " "") "Rushing " "").data = T.data := by
      show pyReplaceL "Rushing ".data [] (pyReplace S "Passing " "").data = T.data
      rw [h1, hS]
      exact pyReplaceL_strip _ _ (by decide) hT
    have h3 : (pyReplace (pyReplace (pyReplace S "Passing " "") "Rushing " "")
        "Receiving " "").data = T.data := by
      show pyReplaceL "Receiving ".data []
        (pyReplace (pyReplace S "Passing " "") "Rushing " "").data = T.data
      rw [h2]
      exact pyReplaceL_keep _ _ (by decide) (hTof _ (by decide) (by simp))
    show pyReplaceL "Fumbles ".data []
      (pyReplace (pyReplace (pyReplace S "Passing " "") "Rushing " "") "Receiving " "").data
        = T.data
    rw [h3]
    exact pyReplaceL_keep _ _ (by decide) (hTof _ (by decide) (by simp))
  · have h1 : (pyReplace S "Passing " "").data = S.data := by
      show pyReplaceL "Passing ".data [] S.data = S.data
      exact pyReplaceL_keep _ _ (by decide) (hoth _ (by simp) (by decide))
    have h2 : (pyReplace (pyReplace S "Passing " "") "Rushing " "").data = S.data := by
      show pyReplaceL "Rushing ".data [] (pyReplace S "Passing " "").data = S.data
      rw [h1]
      exact pyReplaceL_keep _ _ (by decide) (hoth _ (by simp) (by decide))
    have h3 : (pyReplace (pyReplace (pyReplace S "Passing " "") "Rushing " "")
        "Receiving " "").data = T.data := by
      show pyReplaceL "Receiving ".data []
        (pyReplace (pyReplace S "Passing " "") "Rushing " "").data = T.data
      rw [h2, hS]
      exact pyReplaceL_strip _ _ (by decide) hT
    show pyReplaceL "Fumbles ".data []
      (pyReplace (pyReplace (pyReplace S "Passing " "") "Rushing " "") "Receiving " "").data
        = T.data
    rw [h3]
    exact pyReplaceL_keep _ _ (by decide) (hTof _ (by decide) (by simp))
  · have h1 : (pyReplace S "Passing " "").data = S.data := by
      show pyReplaceL "Passing ".data [] S.data = S.data
      exact pyReplaceL_keep _ _ (by decide) (hoth _ (by simp) (by decide))
    have h2 : (pyReplace (pyReplace S "Passing " "") "Rushing " "").data = S.data := by
      show pyReplaceL "Rushing ".data [] (pyReplace S "Passing " "").data = S.data
      rw [h1]
      exact pyReplaceL_keep _ _ (by decide) (hoth _ (by simp) (by decide))
    have h3 : (pyReplace (pyReplace (pyReplace S "Passing " "") "Rushing " "")
        "Receiving " "").data = S.data := by
      show pyReplaceL "Receiving ".data []
        (pyReplace (pyReplace S "Passing " "") "Rushing " "").data = S.data
      rw [h2]
      exact pyReplaceL_keep _ _ (by decide) (hoth _ (by simp) (by decide))
    show pyReplaceL "Fumbles ".data []
      (pyReplace (pyReplace (pyReplace S "Passing " "") "Rushing " "") "Receiving " "").data
        = T.data
    rw [h3, hS]
    exact pyReplaceL_strip _ _ (by decide) hT

/-! ### Claim theorems -/

/-- Claim C9: for every year string that does not parse as an integer (the
parse outcome is none), the interactive menu reports an input error and
returns to the menu prompt (ctl = cont) without invoking any network call
(the request log is empty), for both the comparator and the aggregator
menu choices. -/
theorem C9_invalid_year_no_network (a b ys : String) (tok : Bool)
    (adv : String → Except Fault (List (List (String × TopVal))))
    (ros : Except Fault (List RosterEntry))
    (st : String → Except Fault (List PlayerRecord)) :
    menu_step "1" a b ys none tok adv ros st
      = { output := menu_lines ++ [invalid_year_msg], requests := [], ctl := LoopCtl.cont }
    ∧ menu_step "2" a b ys none tok adv ros st
      = { output := menu_lines ++ [invalid_year_msg], requests := [], ctl := LoopCtl.cont } := by
  constructor <;> rfl

/-- Claim C5: for a category section that is printed, the comparator renders
one row per statistic key of team A's sub-mapping, in alphabetical order;
every rendered key belongs to team A's sub-mapping (a key only in team B
never appears), and a key of A absent from B is rendered with the literal
string N/A as team B's value. -/
theorem C5_rows_only_from_team_a
    (team_a team_b : String) (sa sb : List (String × TopVal)) (cat : String)
    (da db : List (String × Leaf))
    (ha : dictGet sa cat = some (TopVal.dict da))
    (hb : dictGet sb cat = some (TopVal.dict db))
    (hda : da ≠ []) (hdb : db ≠ []) :
    compare_category team_a team_b sa sb cat
      = ("\n--- " ++ pyCapitalize cat ++ " ---") :: cmp_table_header team_a team_b
          :: cmp_dash_line :: (pySorted (da.map Prod.fst)).map (cmp_row da db)
    ∧ (∀ k, k ∈ pySorted (da.map Prod.fst) ↔ k ∈ da.map Prod.fst)
    ∧ List.Sorted (· ≤ ·) (pySorted (da.map Prod.fst))
    ∧ (∀ k, k ∉ db.map Prod.fst →
        cmp_row da db k
          = pyLjust 30 (pyTitle (pyReplace k "_" " "))
              ++ pyLjust 20 (pyStrLeaf ((dictGet da k).getD (Leaf.lStr "N/A")))
              ++ pyLjust 20 "N/A") := by
  refine ⟨?_, fun k => pySorted_mem _ k, pySorted_sorted _, ?_⟩
  · have hea : da.isEmpty = false := by
      cases da with
      | nil => exact absurd rfl hda
      | cons q qs => rfl
    have heb : db.isEmpty = false := by
      cases db with
      | nil => exact absurd rfl hdb
      | cons q qs => rfl
    simp [compare_category, ha, hb, hea, heb]
  · intro k hk
    have hnone : dictGet db k = none := (dictGet_eq_none_iff db k).mpr hk
    simp [cmp_row, hnone, pyStrLeaf]

theorem C5_witness :
    (compare_category "A" "B"
      [("total", TopVal.dict [("wins", Leaf.lInt 10)])]
      [("total", TopVal.dict [("wins", Leaf.lInt 10), ("losses", Leaf.lInt 2)])]
      "total").length = 4 := by
  have h := C5_rows_only_from_team_a "A" "B"
    [("total", TopVal.dict [("wins", Leaf.lInt 10)])]
    [("total", TopVal.dict [("wins", Leaf.lInt 10), ("losses", Leaf.lInt 2)])]
    "total" [("wins", Leaf.lInt 10)] [("wins", Leaf.lInt 10), ("losses", Leaf.lInt 2)]
    (by decide) (by decide) (by decide) (by decide)
  rw [h.1]
  rfl

/-- Claim C6 counterexample: with team A lacking the defense section and
team B having it, the comparator still prints the section header line for
defense, so it does not skip printing anything for that category. -/
theorem C6_counterexample :
    "\n--- Defense ---" ∈ (compare_teams "A" "B" 2023 true
      (Except.ok [[("total", TopVal.dict [("wins", Leaf.lInt 10)])]])
      (Except.ok [[("total", TopVal.dict [("wins", Leaf.lInt 10), ("losses", Leaf.lInt 2)]),
                   ("defense", TopVal.dict [("sacks", Leaf.lInt 3)])]])).output := by
  decide

/-- Claim C6 as amended: when one team lacks a nested mapping for a
category, the comparator prints only the fixed section header line for that
category and skips the comparison table entirely (no column headings,
separator, or rows). -/
theorem C6_amended_header_only
    (team_a team_b : String) (sa sb : List (String × TopVal)) (cat : String)
    (h : dictGet sa cat = none ∨ dictGet sb cat = none) :
    compare_category team_a team_b sa sb cat
      = ["\n--- " ++ pyCapitalize cat ++ " ---"] := by
  rcases h with h | h
  · cases hb : dictGet sb cat with
    | none => simp [compare_category, h, hb]
    | some v => cases v <;> simp [compare_category, h, hb]
  · cases ha : dictGet sa cat with
    | none => simp [compare_category, h, ha]
    | some v => cases v <;> simp [compare_category, h, ha]

theorem C6_amended_witness :
    compare_category "A" "B"
      [("total", TopVal.dict [("wins", Leaf.lInt 10)])]
      [("total", TopVal.dict [("wins", Leaf.lInt 10)]),
       ("defense", TopVal.dict [("sacks", Leaf.lInt 3)])]
      "defense" = ["\n--- Defense ---"] := by
  have h := C6_amended_header_only "A" "B"
    [("total", TopVal.dict [("wins", Leaf.lInt 10)])]
    [("total", TopVal.dict [("wins", Leaf.lInt 10)]),
     ("defense", TopVal.dict [("sacks", Leaf.lInt 3)])]
    "defense" (Or.inl (by decide))
  rw [h]
  rfl

/-- Claim C10: the comparator prints a category's table only when both
teams' values for that category are non-empty dictionaries; otherwise (the
key absent, an empty mapping, or a non-mapping value) only the section
header line is printed, just as if the category were absent. -/
theorem C10_table_iff_both_nonempty_dicts
    (team_a team_b : String) (sa sb : List (String × TopVal)) (cat : String) :
    compare_category team_a team_b sa sb cat = ["\n--- " ++ pyCapitalize cat ++ " ---"]
    ↔ ¬ (∃ da db, dictGet sa cat = some (TopVal.dict da) ∧ da ≠ []
          ∧ dictGet sb cat = some (TopVal.dict db) ∧ db ≠ []) := by
  constructor
  · rintro heq ⟨da, db, ha, hda, hb, hdb⟩
    have hea : da.isEmpty = false := by
      cases da with
      | nil => exact absurd rfl hda
      | cons q qs => rfl
    have heb : db.isEmpty = false := by
      cases db with
      | nil => exact absurd rfl hdb
      | cons q qs => rfl
    rw [show compare_category team_a team_b sa sb cat
          = ("\n--- " ++ pyCapitalize cat ++ " ---") :: cmp_table_header team_a team_b
              :: cmp_dash_line :: (pySorted (da.map Prod.fst)).map (cmp_row da db) from by
        simp [compare_category, ha, hb, hea, heb]] at heq
    simp at heq
  · intro hno
    cases ha : dictGet sa cat with
    | none => simp [compare_category, ha]
    | some va =>
      cases va with
      | leaf v => simp [compare_category, ha]
      | dict da =>
        cases hb : dictGet sb cat with
        | none => simp [compare_category, ha, hb]
        | some vb =>
          cases vb with
          | leaf v => simp [compare_category, ha, hb]
          | dict db =>
            by_cases hda : da = []
            · subst hda; simp [compare_category, ha, hb]
            · by_cases hdb : db = []
              · subst hdb; simp [compare_category, ha, hb]
              · exact absurd ⟨da, db, ha, hda, hb, hdb⟩ hno

/-- Claim C3: for a resolved position that is absent from the fixed
position-to-category map or mapped to an empty list, the aggregator reports
the unsupported-position message (which lists the map's position codes) and
performs no player-stats request: the request log holds only the roster
call. -/
theorem C3_unsupported_position
    (player_name team_name : String) (year : Int) (hasToken : Bool)
    (rosterApi : Except Fault (List RosterEntry))
    (statsApi : String → Except Fault (List PlayerRecord)) (p : String)
    (hpos : (get_player_position player_name team_name hasToken rosterApi).position = some p)
    (hp : p ≠ "")
    (hcats : posLookup (pyUpper p) = none ∨ posLookup (pyUpper p) = some []) :
    (get_player_stats_by_name player_name team_name year hasToken rosterApi statsApi).output
      = [searching_msg player_name team_name year, unsupported_msg p]
    ∧ (get_player_stats_by_name player_name team_name year hasToken rosterApi
        statsApi).requests = [Request.roster team_name]
    ∧ (∀ c, Request.playerStats c ∉ (get_player_stats_by_name player_name team_name year
        hasToken rosterApi statsApi).requests)
    ∧ (get_player_stats_by_name player_name team_name year hasToken rosterApi
        statsApi).combined = [] := by
  obtain ⟨hout, hreq, _⟩ := get_player_position_of_some _ _ _ _ _ hpos
  rcases hcats with hc | hc
  · refine ⟨?_, ?_, ?_, ?_⟩ <;> simp [get_player_stats_by_name, hpos, hp, hc, hout, hreq]
  · refine ⟨?_, ?_, ?_, ?_⟩ <;> simp [get_player_stats_by_name, hpos, hp, hc, hout, hreq]

theorem C3_witness :
    (get_player_stats_by_name "some snapper" "LSU" 2019 true
      (Except.ok [⟨"Some Snapper", "LS"⟩])
      (fun _ => Except.ok [])).requests = [Request.roster "LSU"] :=
  (C3_unsupported_position "some snapper" "LSU" 2019 true
    (Except.ok [⟨"Some Snapper", "LS"⟩]) (fun _ => Except.ok []) "LS"
    (by decide) (by decide) (Or.inr (by decide))).2.1

/-- Claim C8: the position resolver performs a case-insensitive exact match
of the player name against roster entries in response order and returns the
first match's position; it returns none exactly when no entry matches, and
on a fault it returns none and reports the fault. -/
theorem C8_position_resolver (player_name team_name : String) :
    (∀ (roster : List RosterEntry) (pos : String),
       (get_player_position player_name team_name true (Except.ok roster)).position
           = some pos →
       ∃ pre r post, roster = pre ++ r :: post ∧ r.position = pos
         ∧ pyLower r.name = pyLower player_name
         ∧ ∀ x ∈ pre, pyLower x.name ≠ pyLower player_name)
    ∧ (∀ roster : List RosterEntry,
       ((get_player_position player_name team_name true (Except.ok roster)).position = none
         ↔ ∀ x ∈ roster, pyLower x.name ≠ pyLower player_name))
    ∧ (∀ e : Fault,
       (get_player_position player_name team_name true (Except.error e)).position = none
       ∧ (get_player_position player_name team_name true (Except.error e)).output
           = [roster_fault_msg team_name e]) := by
  refine ⟨?_, ?_, ?_⟩
  · intro roster pos h
    have h2 : (roster.find? (fun q => pyLower q.name == pyLower player_name)).map
        RosterEntry.position = some pos := by
      simpa [get_player_position] using h
    obtain ⟨r, hr, hrpos⟩ : ∃ r, roster.find?
        (fun q => pyLower q.name == pyLower player_name) = some r ∧ r.position = pos := by
      cases hfind : roster.find? (fun q => pyLower q.name == pyLower player_name) with
      | none => rw [hfind] at h2; simp at h2
      | some r => rw [hfind] at h2; exact ⟨r, rfl, by simpa using h2⟩
    obtain ⟨hpr, pre, post, hsplit, hpre⟩ := find?_first _ roster r hr
    refine ⟨pre, r, post, hsplit, hrpos, beq_iff_eq.mp hpr, ?_⟩
    intro x hx
    exact beq_eq_false_iff_ne.mp (hpre x hx)
  · intro roster
    constructor
    · intro h x hx hc
      have h2 : roster.find? (fun q => pyLower q.name == pyLower player_name) = none := by
        cases hfind : roster.find? (fun q => pyLower q.name == pyLower player_name) with
        | none => rfl
        | some r => simp [get_player_position, hfind] at h
      exact (List.find?_eq_none.mp h2 x hx) (beq_iff_eq.mpr hc)
    · intro h
      have h2 : roster.find? (fun q => pyLower q.name == pyLower player_name) = none :=
        List.find?_eq_none.mpr (fun x hx hc => h x hx (beq_iff_eq.mp hc))
      simp [get_player_position, h2]
  · intro e
    exact ⟨by simp [get_player_position], by simp [get_player_position]⟩

theorem C8_witness :
    ∃ pre r post,
      ([⟨"Bo Nix", "QB"⟩, ⟨"Joe Burrow", "QB"⟩] : List RosterEntry) = pre ++ r :: post
      ∧ RosterEntry.position r = "QB" ∧ pyLower (RosterEntry.name r) = pyLower "JOE burrow"
      ∧ ∀ x ∈ pre, pyLower (RosterEntry.name x) ≠ pyLower "JOE burrow" :=
  (C8_position_resolver "JOE burrow" "LSU").1
    [⟨"Bo Nix", "QB"⟩, ⟨"Joe Burrow", "QB"⟩] "QB" (by decide)

/-- Claim C7: every fault surfaced by a remote call is caught at the call
site and converted into a reported message plus an absent result (the
embedded functions are total, so no exception propagates); a fault ends
only that fetch operation, and the menu loop continues for every choice
other than the exit choice. -/
theorem C7_fault_containment :
    (∀ (team : String) (year : Int) (e : Fault),
       (fetch_advanced_stats team year true (Except.error e)).result = none
       ∧ (fetch_advanced_stats team year true (Except.error e)).output
           = ["Fetching advanced stats for " ++ team ++ " in " ++ toString year ++ "...",
              fault_msg_adv team e])
    ∧ (∀ (n t : String) (e : Fault),
       (get_player_position n t true (Except.error e)).position = none
       ∧ (get_player_position n t true (Except.error e)).output = [roster_fault_msg t e])
    ∧ (∀ (player_name team_name : String) (year : Int) (hasToken : Bool)
         (rosterApi : Except Fault (List RosterEntry))
         (statsApi : String → Except Fault (List PlayerRecord))
         (p c : String) (cs : List String) (e : Fault),
       (get_player_position player_name team_name hasToken rosterApi).position = some p →
       p ≠ "" →
       posLookup (pyUpper p) = some (c :: cs) →
       (agg_loop player_name statsApi (c :: cs) []).fault = some e →
       agg_fault_msg e ∈ (get_player_stats_by_name player_name team_name year hasToken
          rosterApi statsApi).output)
    ∧ (∀ (choice i1 i2 ys : String) (yp : Option Int) (tok : Bool)
         (adv : String → Except Fault (List (List (String × TopVal))))
         (ros : Except Fault (List RosterEntry))
         (st : String → Except Fault (List PlayerRecord)),
       choice ≠ "3" → (menu_step choice i1 i2 ys yp tok adv ros st).ctl = LoopCtl.cont) := by
  refine ⟨?_, ?_, ?_, ?_⟩
  · intro team year e
    exact ⟨by simp [fetch_advanced_stats], by simp [fetch_advanced_stats]⟩
  · intro n t e
    exact ⟨by simp [get_player_position], by simp [get_player_position]⟩
  · intro pn tn y tok ros st p c cs e hpos hp hcats hf
    simp [get_player_stats_by_name, hpos, hp, hcats, hf]
  · intro choice i1 i2 ys yp tok adv ros st h3
    by_cases h1 : choice = "1"
    · cases yp <;> simp [menu_step, h1]
    · by_cases h2 : choice = "2"
      · cases yp <;> simp [menu_step, h1, h2]
      · simp [menu_step, h1, h2, h3]

theorem C7_witness :
    agg_fault_msg (Fault.apiExc "boom") ∈
      (get_player_stats_by_name "joe burrow" "LSU" 2019 true
        (Except.ok [⟨"Joe Burrow", "QB"⟩])
        (fun _ => Except.error (Fault.apiExc "boom"))).output :=
  C7_fault_containment.2.2.1 "joe burrow" "LSU" 2019 true
    (Except.ok [⟨"Joe Burrow", "QB"⟩]) (fun _ => Except.error (Fault.apiExc "boom"))
    "QB" "passing" ["rushing", "receiving", "fumbles"] (Fault.apiExc "boom")
    (by decide) (by decide) (by decide) (by decide)

/-- Claim C1: when the resolved position maps to a non-empty category list,
the aggregator issues exactly one player-stats request per category, in the
order of the position-to-category map entry (after the single roster call),
and for each response it selects the first record whose player attribute
equals the target name case-insensitively. -/
theorem C1_one_request_per_category
    (player_name team_name : String) (year : Int) (hasToken : Bool)
    (rosterApi : Except Fault (List RosterEntry))
    (statsApi : String → Except Fault (List PlayerRecord))
    (p : String) (cats : List String)
    (hpos : (get_player_position player_name team_name hasToken rosterApi).position = some p)
    (hp : p ≠ "")
    (hcats : posLookup (pyUpper p) = some cats)
    (hne : cats ≠ [])
    (hok : ∀ c ∈ cats, ∃ resp, statsApi c = Except.ok resp) :
    (get_player_stats_by_name player_name team_name year hasToken rosterApi statsApi).requests
      = Request.roster team_name :: cats.map Request.playerStats
    ∧ (∀ c ∈ cats, ∀ (resp : List PlayerRecord) (r : PlayerRecord),
        statsApi c = Except.ok resp → select_player player_name resp = some r →
        pyLower r.player = pyLower player_name
        ∧ ∃ pre post, resp = pre ++ r :: post
            ∧ ∀ x ∈ pre, pyLower x.player ≠ pyLower player_name) := by
  constructor
  · cases cats with
    | nil => exact absurd rfl hne
    | cons c cs =>
      obtain ⟨hreqsplit, _⟩ := get_player_stats_split player_name team_name year hasToken
        rosterApi statsApi p c cs hpos hp hcats
      obtain ⟨_, hreq, _⟩ := get_player_position_of_some _ _ _ _ _ hpos
      obtain ⟨hl, _⟩ := agg_loop_ok player_name statsApi (c :: cs) [] hok
      rw [hreqsplit, hreq, hl]
      rfl
  · intro c _ resp r _ hsel
    obtain ⟨hpr, pre, post, hsplit, hpre⟩ := find?_first _ resp r hsel
    exact ⟨beq_iff_eq.mp hpr, pre, post, hsplit,
      fun x hx => beq_eq_false_iff_ne.mp (hpre x hx)⟩

theorem C1_witness :
    (get_player_stats_by_name "joe burrow" "LSU" 2019 true
      (Except.ok [⟨"Joe Burrow", "QB"⟩])
      (fun _ => Except.ok [])).requests
      = Request.roster "LSU"
        :: (["passing", "rushing", "receiving", "fumbles"].map Request.playerStats) :=
  (C1_one_request_per_category "joe burrow" "LSU" 2019 true
    (Except.ok [⟨"Joe Burrow", "QB"⟩]) (fun _ => Except.ok [])
    "QB" ["passing", "rushing", "receiving", "fumbles"]
    (by decide) (by decide) (by decide) (by decide)
    (fun c _ => ⟨[], rfl⟩)).1

/-- Claim C2: the merge step copies exactly the fields outside
{player, team, conference, athlete_id, category} of a matched record into
the combined mapping under the key category_field, and every key of the
final combined mapping carries the prefix of a requested category. -/
theorem C2_merge_excludes_and_prefixes :
    (∀ (category : String) (fields : List (String × Leaf)),
       (fields.map Prod.fst).Nodup →
       merge_record category fields []
         = (fields.filter (fun kv => decide (kv.1 ∉ excluded_fields))).map
             (fun kv => (category ++ "_" ++ kv.1, kv.2))
       ∧ ∀ k v, ((k, v) ∈ merge_record category fields [] ↔
           ∃ f, k = category ++ "_" ++ f ∧ (f, v) ∈ fields ∧ f ∉ excluded_fields))
    ∧ (∀ (player_name team_name : String) (year : Int) (hasToken : Bool)
         (rosterApi : Except Fault (List RosterEntry))
         (statsApi : String → Except Fault (List PlayerRecord)) (k : String),
       k ∈ (get_player_stats_by_name player_name team_name year hasToken rosterApi
              statsApi).combined.map Prod.fst →
       ∃ c f, k = c ++ "_" ++ f
         ∧ Request.playerStats c ∈ (get_player_stats_by_name player_name team_name year
             hasToken rosterApi statsApi).requests) := by
  constructor
  · intro category fields hnd
    have heq := merge_record_fresh category fields [] hnd (by simp)
    rw [List.nil_append] at heq
    refine ⟨heq, ?_⟩
    intro k v
    rw [heq]
    constructor
    · intro hmem
      simp only [List.mem_map, List.mem_filter] at hmem
      obtain ⟨kv, ⟨hkv_mem, hkv_q⟩, hkv_eq⟩ := hmem
      have hk1 : category ++ "_" ++ kv.1 = k := congrArg Prod.fst hkv_eq
      have hv1 : kv.2 = v := congrArg Prod.snd hkv_eq
      refine ⟨kv.1, hk1.symm, ?_, of_decide_eq_true hkv_q⟩
      rw [← hv1]
      simpa using hkv_mem
    · rintro ⟨f, hk, hmem, hfx⟩
      simp only [List.mem_map, List.mem_filter]
      exact ⟨(f, v), ⟨hmem, decide_eq_true hfx⟩, by rw [hk]⟩
  · intro pn tn y tok ros st k hk
    cases hpos : (get_player_position pn tn tok ros).position with
    | none => simp [get_player_stats_by_name, hpos] at hk
    | some p =>
      by_cases hp : p = ""
      · simp [get_player_stats_by_name, hpos, hp] at hk
      · cases hcats : posLookup (pyUpper p) with
        | none => simp [get_player_stats_by_name, hpos, hp, hcats] at hk
        | some cats =>
          cases cats with
          | nil => simp [get_player_stats_by_name, hpos, hp, hcats] at hk
          | cons c cs =>
            obtain ⟨hreq, hcomb⟩ := get_player_stats_split pn tn y tok ros st p c cs
              hpos hp hcats
            rw [hcomb] at hk
            rcases agg_loop_keys pn st (c :: cs) [] k hk with h2 | ⟨c2, f2, hkeq, hmem⟩
            · simp at h2
            · exact ⟨c2, f2, hkeq, by rw [hreq]; exact List.mem_append_right _ hmem⟩

theorem C2_witness :
    merge_record "passing" [("player", Leaf.lStr "X"), ("yds", Leaf.lInt 7)] []
      = [("passing_yds", Leaf.lInt 7)] := by
  have h := (C2_merge_excludes_and_prefixes.1 "passing"
    [("player", Leaf.lStr "X"), ("yds", Leaf.lInt 7)] (by decide)).1
  rw [h]
  rfl

/-- Claim C4 counterexample: the transform strips every occurrence of the
four title-cased category words and re-prepends the label of the first
category whose prefix occurs anywhere in the key, so the key
rushing_passing_yards renders as Passing Yards, not as the
category-plus-title-cased-remainder Rushing Passing Yards. -/
theorem C4_counterexample :
    display_key_of "rushing_passing_yards" = "Passing Yards"
    ∧ display_key_of "rushing_passing_yards"
        ≠ "Rushing " ++ pyTitle (pyReplace "passing_yards" "_" " ") := by
  constructor
  · decide
  · decide

/-- Claim C4 as amended: the raw key passing_completions renders as
Passing Completions; in general, for a key cat_rest with cat one of
passing, rushing, receiving, fumbles, the transform yields the human label
followed by the title-cased remainder, provided no other category prefix
occurs as a substring of the key and no title-cased category word occurs in
the title-cased remainder (otherwise all occurrences of the four words are
stripped and the label of the first matching prefix is used). -/
theorem C4_display_label :
    display_key_of "passing_completions" = "Passing Completions"
    ∧ ∀ (cat human rest : String),
        (cat, human) ∈ ([("passing", "Passing"), ("rushing", "Rushing"),
                        ("receiving", "Receiving"), ("fumbles", "Fumbles")]
                          : List (String × String)) →
        (∀ q ∈ (["passing_", "rushing_", "receiving_", "fumbles_"] : List String),
            q ≠ cat ++ "_" → pyContains (cat ++ "_" ++ rest) q = false) →
        (∀ w ∈ (["Passing ", "Rushing ", "Receiving ", "Fumbles "] : List String),
            w ≠ human ++ " " →
            pyContains (pyTitle (pyReplace (cat ++ "_" ++ rest) "_" " ")) w = false) →
        pyContains (pyTitle (pyReplace rest "_" " ")) (human ++ " ") = false →
        display_key_of (cat ++ "_" ++ rest)
          = human ++ " " ++ pyTitle (pyReplace rest "_" " ") := by
  constructor
  · decide
  · intro cat human rest hmem hq hw hT
    simp only [List.mem_cons, List.not_mem_nil, or_false] at hmem
    rcases hmem with hch | hch | hch | hch
    · rw [Prod.mk.injEq] at hch
      obtain ⟨rfl, rfl⟩ := hch
      have hws : ("Passing" : String) ++ " " = "Passing " := by decide
      rw [hws] at hw hT ⊢
      have hS : (pyTitle (pyReplace ("passing" ++ "_" ++ rest) "_" " ")).data
          = ("Passing " : String).data ++ (pyTitle (pyReplace rest "_" " ")).data := by
        rw [title_spaced_key "passing" rest (by decide)]
        rw [show pyTitleAux false ("passing" : String).data = ("Passing" : String).data
              from by decide]
        rw [show ("Passing " : String).data = ("Passing" : String).data ++ [' ']
              from by decide]
        rw [List.append_assoc]
        rfl
      have hchain := strip_chain_data
        (pyTitle (pyReplace ("passing" ++ "_" ++ rest) "_" " "))
        (pyTitle (pyReplace rest "_" " ")) "Passing " (by simp) hS hw hT
      have hkey : ("passing" : String) ++ "_" ++ rest = ("passing_" : String) ++ rest := by
        rw [show ("passing" : String) ++ "_" = "passing_" from by decide]
      have hself : pyContains ("passing" ++ "_" ++ rest) "passing_" = true := by
        rw [hkey]
        show containsL ("passing_" : String).data (("passing_" : String) ++ rest).data = true
        rw [sdata_append]
        exact containsL_self_append _ _
      simp only [display_key_of]
      rw [if_pos hself]
      exact congrArg (fun x => "Passing " ++ x) (str_eq_of_data hchain)
    · rw [Prod.mk.injEq] at hch
      obtain ⟨rfl, rfl⟩ := hch
      have hws : ("Rushing" : String) ++ " " = "Rushing " := by decide
      rw [hws] at hw hT ⊢
      have hS : (pyTitle (pyReplace ("rushing" ++ "_" ++ rest) "_" " ")).data
          = ("Rushing " : String).data ++ (pyTitle (pyReplace rest "_" " ")).data := by
        rw [title_spaced_key "rushing" rest (by decide)]
        rw [show pyTitleAux false ("rushing" : String).data = ("Rushing" : String).data
              from by decide]
        rw [show ("Rushing " : String).data = ("Rushing" : String).data ++ [' ']
              from by decide]
        rw [List.append_assoc]
        rfl
      have hchain := strip_chain_data
        (pyTitle (pyReplace ("rushing" ++ "_" ++ rest) "_" " "))
        (pyTitle (pyReplace rest "_" " ")) "Rushing " (by simp) hS hw hT
      have hkey : ("rushing" : String) ++ "_" ++ rest = ("rushing_" : String) ++ rest := by
        rw [show ("rushing" : String) ++ "_" = "rushing_" from by decide]
      have hself : pyContains ("rushing" ++ "_" ++ rest) "rushing_" = true := by
        rw [hkey]
        show containsL ("rushing_" : String).data (("rushing_" : String) ++ rest).data = true
        rw [sdata_append]
        exact containsL_self_append _ _
      have hfp : ¬ (pyContains ("rushing" ++ "_" ++ rest) "passing_" = true) := by
        rw [hq "passing_" (by simp) (by decide)]
        decide
      simp only [display_key_of]
      rw [if_neg hfp, if_pos hself]
      exact congrArg (fun x => "Rushing " ++ x) (str_eq_of_data hchain)
    · rw [Prod.mk.injEq] at hch
      obtain ⟨rfl, rfl⟩ := hch
      have hws : ("Receiving" : String) ++ " " = "Receiving " := by decide
      rw [hws] at hw hT ⊢
      have hS : (pyTitle (pyReplace ("receiving" ++ "_" ++ rest) "_" " ")).data
          = ("Receiving " : String).data ++ (pyTitle (pyReplace rest "_" " ")).data := by
        rw [title_spaced_key "receiving" rest (by decide)]
        rw [show pyTitleAux false ("receiving" : String).data = ("Receiving" : String).data
              from by decide]
        rw [show ("Receiving " : String).data = ("Receiving" : String).data ++ [' ']
              from by decide]
        rw [List.append_assoc]
        rfl
      have hchain := strip_chain_data
        (pyTitle (pyReplace ("receiving" ++ "_" ++ rest) "_" " "))
        (pyTitle (pyReplace rest "_" " ")) "Receiving " (by simp) hS hw hT
      have hkey : ("receiving" : String) ++ "_" ++ rest
          = ("receiving_" : String) ++ rest := by
        rw [show ("receiving" : String) ++ "_" = "receiving_" from by decide]
      have hself : pyContains ("receiving" ++ "_" ++ rest) "receiving_" = true := by
        rw [hkey]
        show containsL ("receiving_" : String).data
          (("receiving_" : String) ++ rest).data = true
        rw [sdata_append]
        exact containsL_self_append _ _
      have hfp : ¬ (pyContains ("receiving" ++ "_" ++ rest) "passing_" = true) := by
        rw [hq "passing_" (by simp) (by decide)]
        decide
      have hfr : ¬ (pyContains ("receiving" ++ "_" ++ rest) "rushing_" = true) := by
        rw [hq "rushing_" (by simp) (by decide)]
        decide
      simp only [display_key_of]
      rw [if_neg hfp, if_neg hfr, if_pos hself]
      exact congrArg (fun x => "Receiving " ++ x) (str_eq_of_data hchain)
    · rw [Prod.mk.injEq] at hch
      obtain ⟨rfl, rfl⟩ := hch
      have hws : ("Fumbles" : String) ++ " " = "Fumbles " := by decide
      rw [hws] at hw hT ⊢
      have hS : (pyTitle (pyReplace ("fumbles" ++ "_" ++ rest) "_" " ")).data
          = ("Fumbles " : String).data ++ (pyTitle (pyReplace rest "_" " ")).data := by
        rw [title_spaced_key "fumbles" rest (by decide)]
        rw [show pyTitleAux false ("fumbles" : String).data = ("Fumbles" : String).data
              from by decide]
        rw [show ("Fumbles " : String).data = ("Fumbles" : String).data ++ [' ']
              from by decide]
        rw [List.append_assoc]
        rfl
      have hchain := strip_chain_data
        (pyTitle (pyReplace ("fumbles" ++ "_" ++ rest) "_" " "))
        (pyTitle (pyReplace rest "_" " ")) "Fumbles " (by simp) hS hw hT
      have hkey : ("fumbles" : String) ++ "_" ++ rest = ("fumbles_" : String) ++ rest := by
        rw [show ("fumbles" : String) ++ "_" = "fumbles_" from by decide]
      have hself : pyContains ("fumbles" ++ "_" ++ rest) "fumbles_" = true := by
        rw [hkey]
        show containsL ("fumbles_" : String).data (("fumbles_" : String) ++ rest).data = true
        rw [sdata_append]
        exact containsL_self_append _ _
      have hfp : ¬ (pyContains ("fumbles" ++ "_" ++ rest) "passing_" = true) := by
        rw [hq "passing_" (by simp) (by decide)]
        decide
      have hfr : ¬ (pyContains ("fumbles" ++ "_" ++ rest) "rushing_" = true) := by
        rw [hq "rushing_" (by simp) (by decide)]
        decide
      have hfc : ¬ (pyContains ("fumbles" ++ "_" ++ rest) "receiving_" = true) := by
        rw [hq "receiving_" (by simp) (by decide)]
        decide
      simp only [display_key_of]
      rw [if_neg hfp, if_neg hfr, if_neg hfc, if_pos hself]
      exact congrArg (fun x => "Fumbles " ++ x) (str_eq_of_data hchain)

theorem C4_witness :
    display_key_of ("rushing" ++ "_" ++ "yds")
      = "Rushing" ++ " " ++ pyTitle (pyReplace "yds" "_" " ") :=
  C4_display_label.2 "rushing" "Rushing" "yds" (by decide) (by decide) (by decide)
    (by decide)

theorem C9_witness :
    menu_step "1" "A" "B" "zz" none true
      (fun _ => Except.error (Fault.apiExc "e"))
      (Except.error (Fault.apiExc "e"))
      (fun _ => Except.error (Fault.apiExc "e"))
      = { output := menu_lines ++ [invalid_year_msg], requests := [],
          ctl := LoopCtl.cont } :=
  (C9_invalid_year_no_network "A" "B" "zz" true
    (fun _ => Except.error (Fault.apiExc "e"))
    (Except.error (Fault.apiExc "e"))
    (fun _ => Except.error (Fault.apiExc "e"))).1

theorem C10_witness :
    compare_category "A" "B"
      [("total", TopVal.leaf (Leaf.lInt 5))]
      [("total", TopVal.dict [("x", Leaf.lInt 1)])]
      "total" = ["\n--- Total ---"] :=
  (C10_table_iff_both_nonempty_dicts "A" "B"
    [("total", TopVal.leaf (Leaf.lInt 5))]
    [("total", TopVal.dict [("x", Leaf.lInt 1)])]
    "total").mpr (by
      rintro ⟨da, db, ha, hda, hb, hdb⟩
      rw [show dictGet [("total", TopVal.leaf (Leaf.lInt 5))] "total"
            = some (TopVal.leaf (Leaf.lInt 5)) from rfl] at ha
      simp at ha)
